import Mathlib

/-!
Verification development for the summarize-pdf service (src/index.js).

The program is a single linear pipeline: extract the text of an uploaded
PDF, split it into chapters on the textual marker matched by the regular
expression Chapter-space-digits (case-insensitive), send each chapter to an
LLM endpoint, parse the JSON reply, insert one row per chapter into a
summaries table, delete the temporary upload, and respond.

The pure core (the chapter segmenter and the code-fence stripper) is
embedded directly, character by character, from the JavaScript source.
The three external collaborators (pdf-parse, the LLM endpoint with the
JSON.parse builtin, and the supabase client) are modelled as oracles in an
`Env` record: the handler's control flow over their outcomes is the
source's control flow.
-/

/-- JavaScript whitespace as `String.prototype.trim` removes it: the
WhiteSpace and LineTerminator productions (tab, LF, VT, FF, CR, space,
NBSP, Ogham space, the U+2000..U+200A spaces, LS, PS, NNBSP, MMSP,
ideographic space, and the BOM). -/
def isJsWhitespace (c : Char) : Bool :=
  let n := c.toNat
  n == 32 || n == 9 || n == 10 || n == 11 || n == 12 || n == 13 ||
  n == 160 || n == 5760 || (8192 ≤ n && n ≤ 8202) || n == 8232 ||
  n == 8233 || n == 8239 || n == 8287 || n == 12288 || n == 65279

/-- JavaScript `s.trim()`: drop leading and trailing whitespace. -/
def jsTrim (s : String) : String :=
  String.mk (((s.data.dropWhile isJsWhitespace).reverse.dropWhile isJsWhitespace).reverse)

/-- Length of the run of ASCII digits at the front of the list: the greedy
match of the regex piece `\d+` (JavaScript `\d` is exactly 0-9). -/
def countDigits : List Char → Nat
  | c :: rest => if c.isDigit then countDigits rest + 1 else 0
  | [] => 0

/-- Does the regex /Chapter \d+/i match at the front of the list?  The
pattern is the seven letters of Chapter case-insensitively (the /i flag
without /u canonicalises only ASCII here), one literal space, and a first
digit; further digits are consumed by `countDigits`. -/
def isHeadingStart : List Char → Bool
  | c1 :: c2 :: c3 :: c4 :: c5 :: c6 :: c7 :: c8 :: c9 :: _ =>
    (c1 == 'C' || c1 == 'c') && (c2 == 'H' || c2 == 'h') && (c3 == 'A' || c3 == 'a') &&
    (c4 == 'P' || c4 == 'p') && (c5 == 'T' || c5 == 't') && (c6 == 'E' || c6 == 'e') &&
    (c7 == 'R' || c7 == 'r') && (c8 == ' ') && c9.isDigit
  | _ => false

/-- Match length of /Chapter \d+/i at the front of the list, 0 when it does
not match there (a real match is 9 characters plus any further digits, so
never 0). -/
def headingM (cs : List Char) : Nat :=
  if isHeadingStart cs then 9 + countDigits (cs.drop 9) else 0

/-- Does a matcher `m` (0 = no match) match at some position of the list?
Instantiated with `headingM` this is: does the text contain an occurrence
of /Chapter \d+/i? -/
def containsMatch (m : List Char → Nat) : List Char → Bool
  | [] => false
  | c :: rest => (m (c :: rest) != 0) || containsMatch m rest

/-- The text contains an occurrence of the heading pattern /Chapter \d+/i. -/
def containsHeading (cs : List Char) : Bool :=
  containsMatch headingM cs

/-- JavaScript `String.prototype.split` on a regex, for a matcher `m`
giving the match length at a position (0 = no match): scan left to right,
cut at each leftmost match, drop the matched delimiter.  `fuel` bounds the
recursion; it never runs out when started at the list's length, since a
match consumes at least one character. -/
def splitGoM (m : List Char → Nat) : Nat → List Char → List (List Char)
  | _, [] => [[]]
  | 0, _ :: _ => [[]]
  | fuel + 1, c :: rest =>
    if m (c :: rest) == 0 then
      match splitGoM m fuel rest with
      | [] => [[c]]
      | s :: ss => (c :: s) :: ss
    else
      [] :: splitGoM m fuel ((c :: rest).drop (m (c :: rest)))

/-- `text.split(/Chapter \d+/i)` from src/index.js line 51, on the
character list of the text. -/
def splitOnHeadings (cs : List Char) : List (List Char) :=
  splitGoM headingM cs.length cs

/-- src/index.js lines 50-53:
`const chapters = text.split(/Chapter \d+/i);`
`return chapters.filter((chapter) => chapter.trim() !== "");`
The split pieces are kept untrimmed; only pieces that trim to the empty
string are removed. -/
def segmentIntoChapters (text : String) : List String :=
  ((splitOnHeadings text.data).map String.mk).filter (fun chapter => jsTrim chapter != "")

/-- The word Chapter, case-insensitively, as exactly seven characters. -/
def chapterWord : List Char → Bool
  | [c1, c2, c3, c4, c5, c6, c7] =>
    (c1 == 'C' || c1 == 'c') && (c2 == 'H' || c2 == 'h') && (c3 == 'A' || c3 == 'a') &&
    (c4 == 'P' || c4 == 'p') && (c5 == 'T' || c5 == 't') && (c6 == 'E' || c6 == 'e') &&
    (c7 == 'R' || c7 == 'r')
  | _ => false

/-- Length of the run of JavaScript whitespace at the front of the list. -/
def countWs : List Char → Nat
  | c :: rest => if isJsWhitespace c then countWs rest + 1 else 0
  | [] => 0

/-- Modelled from the spec: the delimiter of section 4.1 read word for
word, the literal Chapter followed by whitespace (one or more whitespace
characters) and one or more digits, case-insensitive.  Match length at the
front of the list, 0 when no match. -/
def specHeadingM (cs : List Char) : Nat :=
  if chapterWord (cs.take 7) then
    let w := countWs (cs.drop 7)
    if w == 0 then 0
    else
      let d := countDigits ((cs.drop 7).drop w)
      if d == 0 then 0 else 7 + w + d
  else 0

/-- Modelled from the spec: the Chapter Segmenter as section 4.1 words it
for claim C1, split on Chapter-whitespace-digits, discard the delimiters,
trim each resulting substring, and remove empty strings. -/
def segmentIntoChapters_specC1 (text : String) : List String :=
  ((splitGoM specHeadingM text.data.length text.data).map
    (fun piece => jsTrim (String.mk piece))).filter (fun chapter => chapter != "")

/-- The JSON object the upload handler destructures out of the parsed LLM
reply: a summary and six numeric scores (src/index.js lines 152-160). -/
structure SummaryResult where
  summary : String
  clarity_score : Int
  cohesion_score : Int
  coverage_score : Int
  granularity_score : Int
  storytelling_score : Int
  overall_score : Int
deriving DecidableEq, Repr

/-- One row of the summaries table as storeSummaryInSupabase inserts it
(src/index.js lines 119-130). -/
structure Row where
  chapter_number : Nat
  summary : String
  clarity_score : Int
  cohesion_score : Int
  coverage_score : Int
  granularity_score : Int
  storytelling_score : Int
  overall_score : Int
deriving DecidableEq, Repr

/-- The row built verbatim from a chapter number and a parsed result. -/
def mkRow (chapterNumber : Nat) (r : SummaryResult) : Row :=
  ⟨chapterNumber, r.summary, r.clarity_score, r.cohesion_score, r.coverage_score,
    r.granularity_score, r.storytelling_score, r.overall_score⟩

/-- The external collaborators of one upload request, as oracles:
`filePresent` is whether multer attached req.file; `extract` the outcome of
fs.readFile plus pdf-parse; `llm i text` the outcome of the chat-completion
request for the i-th chapter (the fixed rubric prompt string of
getSummaryFromDeepSeek does not influence control flow and is absorbed into
the oracle); `jsonParse` the JSON.parse builtin applied to the cleaned
reply, none when it throws; `insertOutcome i` the outcome of the i-th
supabase insert; `unlinkOutcome` the outcome of fs.unlink on the temp
file. -/
structure Env where
  filePresent : Bool
  extract : Except String String
  llm : Nat → String → Except String String
  jsonParse : String → Option SummaryResult
  insertOutcome : Nat → Except String Unit
  unlinkOutcome : Except String Unit

/-- The global replace of /(three backticks)json|(three backticks)/ by the
empty string (src/index.js line 97): scan left to right, at each position
preferring the longer alternative, exactly as the regex alternation does.
Character 96 is the backtick.  `fuel` bounds the recursion and never runs
out when started at the list's length. -/
def stripFencesGo : Nat → List Char → List Char
  | _, [] => []
  | 0, cs => cs
  | fuel + 1, c :: rest =>
    if (c.toNat == 96) && (rest.take 6).map Char.toNat == [96, 96, 106, 115, 111, 110] then
      stripFencesGo fuel (rest.drop 6)
    else if (c.toNat == 96) && (rest.take 2).map Char.toNat == [96, 96] then
      stripFencesGo fuel (rest.drop 2)
    else
      c :: stripFencesGo fuel rest

/-- src/index.js line 97: strip the Markdown code fences from the raw
reply and trim it. -/
def cleanResponse (responseText : String) : String :=
  jsTrim (String.mk (stripFencesGo responseText.data.length responseText.data))

/-- getSummaryFromDeepSeek (src/index.js lines 55-107) for the i-th
chapter: send the chapter text, clean the reply, parse it strictly as
JSON; a parse failure is rethrown as its own error, any LLM failure
propagates. -/
def getSummaryFromDeepSeek (env : Env) (i : Nat) (text : String) : Except String SummaryResult :=
  match env.llm i text with
  | .error e => .error e
  | .ok responseText =>
    let cleanedResponse := cleanResponse responseText
    match env.jsonParse cleanedResponse with
    | some result => .ok result
    | none => .error ("Failed to parse API response.")

/-- storeSummaryInSupabase (src/index.js lines 109-138): one insert into
the summaries table; on a supabase error the error is rethrown and no row
is stored, otherwise the row joins the table verbatim.  `callIdx` is the
position of this insert among the request's inserts, indexing the
oracle. -/
def storeSummaryInSupabase (env : Env) (callIdx : Nat) (chapterNumber : Nat) (summary : String)
    (clarityScore cohesionScore coverageScore granularityScore storytellingScore overallScore : Int)
    (rows : List Row) : Except String (List Row) :=
  match env.insertOutcome callIdx with
  | .error e => .error (("Supabase error: ") ++ e)
  | .ok _ => .ok (rows ++ [⟨chapterNumber, summary, clarityScore, cohesionScore, coverageScore,
      granularityScore, storytellingScore, overallScore⟩])

/-- Result of the per-chapter loop: the table rows inserted so far, the
chapter indices for which an LLM request was sent, and whether the loop ran
to completion (false = a throw escaped to the catch). -/
structure LoopOut where
  rows : List Row
  calls : List Nat
  ok : Bool
deriving DecidableEq, Repr

/-- The for-loop of the upload handler (src/index.js lines 148-175):
chapters strictly in order, summarize then store, the first throw aborts
the rest. -/
def processLoop (env : Env) : List String → Nat → List Row → List Nat → LoopOut
  | [], _, rows, calls => ⟨rows, calls, true⟩
  | chapter :: rest, i, rows, calls =>
    match getSummaryFromDeepSeek env i chapter with
    | .error _ => ⟨rows, calls ++ [i], false⟩
    | .ok result =>
      match storeSummaryInSupabase env i (i + 1) result.summary result.clarity_score
          result.cohesion_score result.coverage_score result.granularity_score
          result.storytelling_score result.overall_score rows with
      | .error _ => ⟨rows, calls ++ [i], false⟩
      | .ok rows2 => processLoop env rest (i + 1) rows2 (calls ++ [i])

/-- The HTTP response of the upload route: 200 with the success message or
500 with the generic error message. -/
inductive Resp
  | ok200
  | err500
deriving DecidableEq, Repr

/-- Observable final state of one upload request: the rows now in the
summaries table, the LLM calls made, whether fs.unlink was ever invoked,
and whether the temp file is gone from storage. -/
structure St where
  rows : List Row
  calls : List Nat
  unlinkAttempted : Bool
  fileDeleted : Bool
deriving DecidableEq, Repr

/-- The POST /upload handler (src/index.js lines 140-188).  Everything
sits in one try block: extraction, segmentation, the chapter loop, and the
fs.unlink of the temp file; any throw lands in the catch, which answers
500 without touching the temp file.  Only the all-successful path reaches
unlink, and an unlink failure itself throws into the catch. -/
def uploadHandler (env : Env) : Resp × St :=
  if env.filePresent then
    match env.extract with
    | .error _ => (.err500, ⟨[], [], false, false⟩)
    | .ok text =>
      let chapters := segmentIntoChapters text
      let out := processLoop env chapters 0 [] []
      if out.ok then
        match env.unlinkOutcome with
        | .ok _ => (.ok200, ⟨out.rows, out.calls, true, true⟩)
        | .error _ => (.err500, ⟨out.rows, out.calls, true, false⟩)
      else
        (.err500, ⟨out.rows, out.calls, false, false⟩)
  else
    (.err500, ⟨[], [], false, false⟩)

/-- Outcome of the startup read `supabase.from("summaries").select("*").limit(1)`:
it resolved with rows, resolved with an error field, or threw. -/
inductive SelectOutcome
  | gotRows
  | errorResult
  | threw
deriving DecidableEq, Repr

/-- checkSupabaseConnection (src/index.js lines 22-38): true exactly when
the startup read resolved without an error. -/
def checkSupabaseConnection : SelectOutcome → Bool
  | .gotRows => true
  | .errorResult => false
  | .threw => false

/-- Events of process start, in order. -/
inductive StartEvent
  | listenBound
  | checkRun (ok : Bool)
  | serving
  | exitProcess
deriving DecidableEq, Repr

/-- Is the process accepting HTTP requests while in this event's state?
The upload route is registered before app.listen, so requests are served
from the moment the listener is bound. -/
def acceptsRequestsAt : StartEvent → Bool
  | .listenBound => true
  | .serving => true
  | .checkRun _ => false
  | .exitProcess => false

/-- Process start (src/index.js lines 192-200): app.listen binds the
listener first; its callback then runs checkSupabaseConnection and calls
process.exit(1) when it returns false, otherwise the process keeps
serving. -/
def startupTrace (o : SelectOutcome) : List StartEvent :=
  [.listenBound, .checkRun (checkSupabaseConnection o)] ++
    (if checkSupabaseConnection o then [.serving] else [.exitProcess])

/-- The rows a run over `n` consecutive chapters starting at 0-based index
`i` writes, when chapter `j` parses to `results j`: chapter numbers are
the 1-based positions, fields are copied verbatim. -/
def expectedRows (results : Nat → SummaryResult) : Nat → Nat → List Row
  | _, 0 => []
  | i, n + 1 => mkRow (i + 1) (results i) :: expectedRows results (i + 1) n

/-- A sample parsed result for concrete runs. -/
def sampleResult : SummaryResult :=
  ⟨"A compact summary.", 9, 8, 7, 8, 9, 9⟩

/-- A sample parsed result with scores far outside 0-10: the pipeline
stores it unchanged. -/
def wildResult : SummaryResult :=
  ⟨"Out of range on purpose.", 11, -3, 99, 0, 42, 999⟩

/-- Concrete environment in which the PDF extraction fails. -/
def envExtractFail : Env :=
  ⟨true, .error ("corrupt pdf"), fun _ _ => .ok (""), fun _ => none,
    fun _ => .ok (), .ok ()⟩

/-- Concrete environment in which everything succeeds except the final
fs.unlink of the temp file. -/
def envUnlinkFail : Env :=
  ⟨true, .ok ("hello"), fun _ _ => .ok ("ignored"), fun _ => some sampleResult,
    fun _ => .ok (), .error ("EPERM")⟩

/-- Concrete environment in which the single chapter's LLM reply is not
JSON: JSON.parse throws on everything. -/
def envParseFail : Env :=
  ⟨true, .ok ("only text"), fun _ _ => .ok ("not json at all"), fun _ => none,
    fun _ => .ok (), .ok ()⟩

/-- Concrete two-chapter environment in which every step succeeds and the
scores are far out of range. -/
def envAllOk : Env :=
  ⟨true, .ok ("Chapter 1 aaa Chapter 2 bbb"), fun _ _ => .ok ("ignored"),
    fun _ => some wildResult, fun _ => .ok (), .ok ()⟩

/-- Concrete two-chapter environment in which chapter 1 goes through and
the insert of chapter 2 is rejected by the store. -/
def envInsertFail : Env :=
  ⟨true, .ok ("Chapter 1 ccc Chapter 2 ddd"), fun _ _ => .ok ("ignored"),
    fun _ => some sampleResult, fun i => if i == 0 then .ok () else .error ("duplicate key"),
    .ok ()⟩

@[simp]
theorem string_data_mk (l : List Char) : (String.mk l).data = l := rfl

theorem isHeadingStart_append (l₁ l₂ : List Char) (h : isHeadingStart l₁ = true) :
    isHeadingStart (l₁ ++ l₂) = true := by
  match l₁ with
  | c1 :: c2 :: c3 :: c4 :: c5 :: c6 :: c7 :: c8 :: c9 :: t => simpa [isHeadingStart] using h
  | [] => simp [isHeadingStart] at h
  | [c1] => simp [isHeadingStart] at h
  | [c1, c2] => simp [isHeadingStart] at h
  | [c1, c2, c3] => simp [isHeadingStart] at h
  | [c1, c2, c3, c4] => simp [isHeadingStart] at h
  | [c1, c2, c3, c4, c5] => simp [isHeadingStart] at h
  | [c1, c2, c3, c4, c5, c6] => simp [isHeadingStart] at h
  | [c1, c2, c3, c4, c5, c6, c7] => simp [isHeadingStart] at h
  | [c1, c2, c3, c4, c5, c6, c7, c8] => simp [isHeadingStart] at h

theorem headingM_append (l₁ l₂ : List Char) (h : headingM l₁ ≠ 0) :
    headingM (l₁ ++ l₂) ≠ 0 := by
  unfold headingM at h ⊢
  by_cases hs : isHeadingStart l₁ = true
  · rw [isHeadingStart_append l₁ l₂ hs]
    simp
  · simp only [Bool.not_eq_true] at hs
    simp [hs] at h

theorem splitGoM_struct (m : List Char → Nat)
    (hm : ∀ l₁ l₂ : List Char, m l₁ ≠ 0 → m (l₁ ++ l₂) ≠ 0) :
    ∀ (fuel : Nat) (cs : List Char), cs.length ≤ fuel →
    ∃ s ss parts, splitGoM m fuel cs = s :: ss ∧
      (s :: parts).flatten = cs ∧ List.Sublist ss parts ∧
      containsMatch m s = false ∧ ∀ t ∈ ss, containsMatch m t = false := by
  intro fuel
  induction fuel with
  | zero =>
    intro cs hcs
    have hnil : cs = [] := List.eq_nil_of_length_eq_zero (Nat.le_zero.mp hcs)
    subst hnil
    exact ⟨[], [], [], rfl, rfl, List.Sublist.refl _, rfl, by intro t ht; cases ht⟩
  | succ fuel ih =>
    intro cs hcs
    match cs with
    | [] => exact ⟨[], [], [], rfl, rfl, List.Sublist.refl _, rfl, by intro t ht; cases ht⟩
    | c :: rest =>
      by_cases h0 : m (c :: rest) = 0
      · have hr : rest.length ≤ fuel := by
          simp only [List.length_cons] at hcs
          omega
        obtain ⟨s, ss, parts, heq, hjoin, hsub, hsm, hss⟩ := ih rest hr
        have hjoin' : s ++ parts.flatten = rest := by simpa [List.flatten_cons] using hjoin
        have hcz : m (c :: s) = 0 := by
          by_contra hne
          have hx := hm (c :: s) parts.flatten hne
          rw [List.cons_append, hjoin'] at hx
          exact hx h0
        refine ⟨c :: s, ss, parts, ?_, ?_, hsub, ?_, hss⟩
        · simp [splitGoM, h0, heq]
        · simp [List.flatten_cons, hjoin']
        · simp [containsMatch, hcz, hsm]
      · have h2 : 1 ≤ m (c :: rest) := Nat.one_le_iff_ne_zero.mpr h0
        have hlen : ((c :: rest).drop (m (c :: rest))).length ≤ fuel := by
          rw [List.length_drop]
          simp only [List.length_cons] at hcs ⊢
          omega
        obtain ⟨s', ss', parts', heq', hjoin', hsub', hs', hss'⟩ := ih _ hlen
        have hjoin'' : s' ++ parts'.flatten = (c :: rest).drop (m (c :: rest)) := by
          simpa [List.flatten_cons] using hjoin'
        refine ⟨[], s' :: ss', (c :: rest).take (m (c :: rest)) :: s' :: parts', ?_, ?_, ?_, rfl, ?_⟩
        · simp [splitGoM, h0, heq']
        · simp only [List.flatten_cons, List.nil_append]
          rw [hjoin'']
          exact List.take_append_drop _ _
        · exact List.Sublist.cons _ (List.Sublist.cons₂ _ hsub')
        · intro t ht
          rcases List.mem_cons.mp ht with h | h
          · exact h ▸ hs'
          · exact hss' t h

theorem splitGoM_noMatch_all (m : List Char → Nat) :
    ∀ (fuel : Nat) (cs : List Char), cs.length ≤ fuel →
    containsMatch m cs = false → splitGoM m fuel cs = [cs] := by
  intro fuel
  induction fuel with
  | zero =>
    intro cs hcs _
    have hnil : cs = [] := List.eq_nil_of_length_eq_zero (Nat.le_zero.mp hcs)
    subst hnil
    rfl
  | succ fuel ih =>
    intro cs hcs hcm
    match cs with
    | [] => rfl
    | c :: rest =>
      simp only [containsMatch, Bool.or_eq_false_iff, bne_eq_false_iff_eq] at hcm
      obtain ⟨h0, hrest⟩ := hcm
      have hr : rest.length ≤ fuel := by
        simp only [List.length_cons] at hcs
        omega
      simp [splitGoM, h0, ih rest hr hrest]

theorem segment_struct (text : String) :
    ∃ s ss parts, splitOnHeadings text.data = s :: ss ∧
      (s :: parts).flatten = text.data ∧ List.Sublist ss parts ∧
      containsMatch headingM s = false ∧ ∀ t ∈ ss, containsMatch headingM t = false :=
  splitGoM_struct headingM headingM_append text.data.length text.data (Nat.le_refl _)

theorem segment_mem_noHeading (text s : String) (hs : s ∈ segmentIntoChapters text) :
    containsHeading s.data = false := by
  obtain ⟨s0, ss, parts, heq, hflat, hsub, hs0, hss⟩ := segment_struct text
  have hmem : s ∈ (splitOnHeadings text.data).map String.mk :=
    (List.mem_filter.mp hs).1
  obtain ⟨l, hl, hls⟩ := List.mem_map.mp hmem
  subst hls
  rw [heq] at hl
  unfold containsHeading
  rcases List.mem_cons.mp hl with h | h
  · simpa [h] using hs0
  · simpa using hss l h

theorem segment_parts (text : String) :
    ∃ parts : List (List Char), parts.flatten = text.data ∧
      List.Sublist ((segmentIntoChapters text).map String.data) parts := by
  obtain ⟨s0, ss, parts, heq, hflat, hsub, hs0, hss⟩ := segment_struct text
  refine ⟨s0 :: parts, hflat, ?_⟩
  have h1 : List.Sublist ((segmentIntoChapters text).map String.data)
      (((splitOnHeadings text.data).map String.mk).map String.data) :=
    List.Sublist.map _ (List.filter_sublist _)
  have h2 : (((splitOnHeadings text.data).map String.mk).map String.data) =
      splitOnHeadings text.data := by
    simp only [List.map_map]
    have hid : String.data ∘ String.mk = id := funext (fun l => rfl)
    rw [hid, List.map_id]
  rw [h2] at h1
  rw [heq] at h1
  exact h1.trans (List.Sublist.cons₂ _ hsub)

theorem segment_noMatch_eq (text : String) (h2 : containsHeading text.data = false) :
    splitOnHeadings text.data = [text.data] :=
  splitGoM_noMatch_all headingM text.data.length text.data (Nat.le_refl _) h2

theorem processLoop_ok (env : Env) (results : Nat → SummaryResult) :
    ∀ (chapters : List String) (i : Nat) (rows : List Row) (calls : List Nat),
    (∀ j (hj : j < chapters.length),
      getSummaryFromDeepSeek env (i + j) chapters[j] = .ok (results (i + j)) ∧
      env.insertOutcome (i + j) = .ok ()) →
    processLoop env chapters i rows calls =
      ⟨rows ++ expectedRows results i chapters.length,
        calls ++ List.range' i chapters.length, true⟩ := by
  intro chapters
  induction chapters with
  | nil =>
    intro i rows calls h
    simp [processLoop, expectedRows, List.range']
  | cons chapter rest ih =>
    intro i rows calls h
    have h0 := h 0 (by simp)
    simp only [List.getElem_cons_zero, Nat.add_zero] at h0
    have hrest : ∀ j (hj : j < rest.length),
        getSummaryFromDeepSeek env ((i + 1) + j) rest[j] = .ok (results ((i + 1) + j)) ∧
        env.insertOutcome ((i + 1) + j) = .ok () := by
      intro j hj
      have harith : i + (j + 1) = (i + 1) + j := by omega
      have hx := h (j + 1) (by simpa using Nat.succ_lt_succ hj)
      rw [harith] at hx
      simpa using hx
    simp only [processLoop, h0.1, storeSummaryInSupabase, h0.2]
    rw [ih (i + 1) _ _ hrest]
    simp [expectedRows, mkRow, List.range', List.append_assoc]

theorem processLoop_fail (env : Env) (results : Nat → SummaryResult) :
    ∀ (chapters : List String) (k : Nat) (i : Nat) (rows : List Row) (calls : List Nat)
      (hk : k < chapters.length),
    (∀ j (_ : j < k) (hj2 : j < chapters.length),
      getSummaryFromDeepSeek env (i + j) chapters[j] = .ok (results (i + j)) ∧
      env.insertOutcome (i + j) = .ok ()) →
    ((∃ e, getSummaryFromDeepSeek env (i + k) chapters[k] = .error e) ∨
      (∃ r e, getSummaryFromDeepSeek env (i + k) chapters[k] = .ok r ∧
        env.insertOutcome (i + k) = .error e)) →
    processLoop env chapters i rows calls =
      ⟨rows ++ expectedRows results i k, calls ++ List.range' i (k + 1), false⟩ := by
  intro chapters
  induction chapters with
  | nil =>
    intro k i rows calls hk
    exact absurd hk (by simp)
  | cons chapter rest ih =>
    intro k i rows calls hk hok hfail
    match k with
    | 0 =>
      simp only [Nat.add_zero, List.getElem_cons_zero] at hfail
      rcases hfail with ⟨e, he⟩ | ⟨r, e, hr, hins⟩
      · simp [processLoop, he, expectedRows, List.range']
      · simp [processLoop, hr, storeSummaryInSupabase, hins, expectedRows, List.range']
    | k' + 1 =>
      have h0 := hok 0 (Nat.succ_pos k') (by simp)
      simp only [List.getElem_cons_zero, Nat.add_zero] at h0
      have hk' : k' < rest.length := by
        simp only [List.length_cons] at hk
        omega
      have hok' : ∀ j (hj1 : j < k') (hj2 : j < rest.length),
          getSummaryFromDeepSeek env ((i + 1) + j) rest[j] = .ok (results ((i + 1) + j)) ∧
          env.insertOutcome ((i + 1) + j) = .ok () := by
        intro j hj1 hj2
        have harith : i + (j + 1) = (i + 1) + j := by omega
        have hx := hok (j + 1) (Nat.succ_lt_succ hj1) (by simpa using Nat.succ_lt_succ hj2)
        rw [harith] at hx
        simpa using hx
      have harith : i + (k' + 1) = (i + 1) + k' := by omega
      have hfail' : (∃ e, getSummaryFromDeepSeek env ((i + 1) + k') rest[k'] = .error e) ∨
          (∃ r e, getSummaryFromDeepSeek env ((i + 1) + k') rest[k'] = .ok r ∧
            env.insertOutcome ((i + 1) + k') = .error e) := by
        rw [← harith]
        simpa using hfail
      simp only [processLoop, h0.1, storeSummaryInSupabase, h0.2]
      rw [ih k' (i + 1) _ _ hk' hok' hfail']
      simp [expectedRows, mkRow, List.range', List.append_assoc]

theorem expectedRows_length (results : Nat → SummaryResult) :
    ∀ (i n : Nat), (expectedRows results i n).length = n := by
  intro i n
  induction n generalizing i with
  | zero => rfl
  | succ n ih => simp [expectedRows, ih]

theorem expectedRows_map_chapter (results : Nat → SummaryResult) :
    ∀ (i n : Nat), (expectedRows results i n).map Row.chapter_number = List.range' (i + 1) n := by
  intro i n
  induction n generalizing i with
  | zero => rfl
  | succ n ih => simp [expectedRows, List.range', ih, mkRow]

/-- Claim C1, counterexample: on the spec's own example the code returns the
split pieces untrimmed, not the trimmed chapters the claim describes; and a
tab after Chapter is not accepted as the whitespace of the claim's
delimiter. -/
theorem c1_counterexample :
    segmentIntoChapters ("Chapter 1\nfoo\nChapter 2\nbar") ≠ ["foo", "bar"] ∧
    segmentIntoChapters_specC1 ("Chapter 1\nfoo\nChapter 2\nbar") = ["foo", "bar"] ∧
    segmentIntoChapters ("Chapter 1\nfoo\nChapter 2\nbar") = ["\nfoo\n", "\nbar"] ∧
    segmentIntoChapters ("Chapter\t1\nfoo") = ["Chapter\t1\nfoo"] := by
  refine ⟨by decide, by decide, by decide, by decide⟩

/-- Claim C1 as amended: the segmenter splits on Chapter, one literal
space and digits (case-insensitive), discards the delimiters, removes the
pieces that trim to empty, and returns the surviving pieces untrimmed; the
spec's example yields the two untrimmed chapters. -/
theorem c1_amended_thm :
    segmentIntoChapters ("Chapter 1\nfoo\nChapter 2\nbar") = ["\nfoo\n", "\nbar"] ∧
    segmentIntoChapters ("chapter 12 x CHAPTER 3 y") = [" x ", " y"] := by
  refine ⟨by decide, by decide⟩

/-- Claim C2, counterexample: a text consisting of one heading only
segments to zero chapters, not at least one; and a headingless text is
returned whole, not trimmed. -/
theorem c2_counterexample :
    segmentIntoChapters ("Chapter 1") = [] ∧
    segmentIntoChapters (" x ") ≠ [jsTrim (" x ")] := by
  refine ⟨by decide, by decide⟩

/-- Claim C2 as amended: when the text does not trim to empty and no
heading matches anywhere, the segmenter returns exactly one chapter, the
whole untrimmed input; texts that are whitespace-only or consist only of
headings and whitespace yield zero chapters instead. -/
theorem c2_amended_thm (text : String) (h1 : jsTrim text ≠ "")
    (h2 : containsHeading text.data = false) :
    segmentIntoChapters text = [text] := by
  unfold segmentIntoChapters
  rw [segment_noMatch_eq text h2]
  have hmk : String.mk text.data = text := rfl
  simp [hmk, h1]

theorem c2_witness :
    jsTrim ("plain notes") ≠ "" ∧ containsHeading (("plain notes").data) = false ∧
    segmentIntoChapters ("plain notes") = ["plain notes"] :=
  ⟨by decide, by decide, c2_amended_thm ("plain notes") (by decide) (by decide)⟩

/-- Claim C3, counterexample: when extraction fails the handler throws
into the catch without ever reaching the fs.unlink call, so deletion of
the temp file is not attempted and the file remains on storage. -/
theorem c3_counterexample :
    (uploadHandler envExtractFail).1 = .err500 ∧
    (uploadHandler envExtractFail).2.unlinkAttempted = false ∧
    (uploadHandler envExtractFail).2.fileDeleted = false := by
  refine ⟨by decide, by decide, by decide⟩

/-- Claim C3 as amended: deletion of the temporary file is attempted
exactly when the file was present, extraction succeeded and every
chapter's summarize-then-store pair succeeded, and the file is actually
gone exactly when moreover the unlink itself succeeded; on any earlier
failure the temp file survives on storage. -/
theorem c3_amended_thm (env : Env) :
    ((uploadHandler env).2.unlinkAttempted = true ↔
      env.filePresent = true ∧ ∃ text, env.extract = .ok text ∧
        (processLoop env (segmentIntoChapters text) 0 [] []).ok = true) ∧
    ((uploadHandler env).2.fileDeleted = true ↔
      env.filePresent = true ∧ (∃ text, env.extract = .ok text ∧
        (processLoop env (segmentIntoChapters text) 0 [] []).ok = true) ∧
      env.unlinkOutcome = .ok ()) := by
  unfold uploadHandler
  by_cases hf : env.filePresent = true
  · cases hex : env.extract with
    | error e => simp [hf, hex]
    | ok text =>
      by_cases hl : (processLoop env (segmentIntoChapters text) 0 [] []).ok = true
      · cases hu : env.unlinkOutcome with
        | ok u => cases u; simp [hf, hex, hl, hu]
        | error e => simp [hf, hex, hl, hu]
      · simp [hf, hex, hl]
  · simp [hf]

/-- Claim C4: a chapter whose LLM reply, after fence stripping, fails to
parse as JSON aborts the whole request with the 500 response; no row is
inserted for that chapter or any later one, and no later chapter is sent
to the LLM. -/
theorem c4_thm (env : Env) (text : String) (results : Nat → SummaryResult) (k : Nat)
    (hf : env.filePresent = true) (he : env.extract = .ok text)
    (hk : k < (segmentIntoChapters text).length)
    (hok : ∀ j (_ : j < k) (hj2 : j < (segmentIntoChapters text).length),
      getSummaryFromDeepSeek env j (segmentIntoChapters text)[j] = .ok (results j) ∧
      env.insertOutcome j = .ok ())
    (hfail : ∃ resp, env.llm k (segmentIntoChapters text)[k] = .ok resp ∧
      env.jsonParse (cleanResponse resp) = none) :
    (uploadHandler env).1 = .err500 ∧
    (uploadHandler env).2.rows = expectedRows results 0 k ∧
    (uploadHandler env).2.calls = List.range' 0 (k + 1) := by
  obtain ⟨resp, hllm, hjson⟩ := hfail
  have hgs : getSummaryFromDeepSeek env k ((segmentIntoChapters text)[k]) =
      .error ("Failed to parse API response.") := by
    unfold getSummaryFromDeepSeek
    rw [hllm]
    simp [hjson]
  have hloop := processLoop_fail env results (segmentIntoChapters text) k 0 [] [] hk
    (by intro j hj1 hj2; simpa using hok j hj1 hj2)
    (Or.inl ⟨_, by simpa using hgs⟩)
  simp only [uploadHandler, hf, if_true, he]
  rw [hloop]
  simp

/-- Claim C5: when every chapter's summarize-then-store pair succeeds, the
handler inserts exactly one row per chapter, with chapter numbers 1..N in
positional order and every field copied verbatim from the parsed result,
whatever the score values are. -/
theorem c5_thm (env : Env) (text : String) (results : Nat → SummaryResult)
    (hf : env.filePresent = true) (he : env.extract = .ok text)
    (hok : ∀ j (hj : j < (segmentIntoChapters text).length),
      getSummaryFromDeepSeek env j (segmentIntoChapters text)[j] = .ok (results j) ∧
      env.insertOutcome j = .ok ()) :
    (uploadHandler env).2.rows = expectedRows results 0 (segmentIntoChapters text).length ∧
    (uploadHandler env).2.rows.map Row.chapter_number =
      List.range' 1 (segmentIntoChapters text).length ∧
    (uploadHandler env).2.rows.length = (segmentIntoChapters text).length := by
  have hloop := processLoop_ok env results (segmentIntoChapters text) 0 [] []
    (by intro j hj; simpa using hok j hj)
  have hrows : (uploadHandler env).2.rows =
      expectedRows results 0 (segmentIntoChapters text).length := by
    simp only [uploadHandler, hf, if_true, he]
    rw [hloop]
    cases env.unlinkOutcome <;> simp
  refine ⟨hrows, ?_, ?_⟩
  · rw [hrows]
    simpa using expectedRows_map_chapter results 0 (segmentIntoChapters text).length
  · rw [hrows]
    exact expectedRows_length results 0 (segmentIntoChapters text).length

/-- Claim C6: when processing fails at chapter k+1 (its summarization or
its insert), the request answers 500, the rows of chapters 1..k stay in
the store untouched, exactly chapters 1..k+1 were sent to the LLM, and no
later chapter is summarized or inserted. -/
theorem c6_thm (env : Env) (text : String) (results : Nat → SummaryResult) (k : Nat)
    (hf : env.filePresent = true) (he : env.extract = .ok text)
    (hk : k < (segmentIntoChapters text).length)
    (hok : ∀ j (_ : j < k) (hj2 : j < (segmentIntoChapters text).length),
      getSummaryFromDeepSeek env j (segmentIntoChapters text)[j] = .ok (results j) ∧
      env.insertOutcome j = .ok ())
    (hfail : (∃ e, getSummaryFromDeepSeek env k (segmentIntoChapters text)[k] = .error e) ∨
      (∃ r e, getSummaryFromDeepSeek env k (segmentIntoChapters text)[k] = .ok r ∧
        env.insertOutcome k = .error e)) :
    (uploadHandler env).1 = .err500 ∧
    (uploadHandler env).2.rows = expectedRows results 0 k ∧
    (uploadHandler env).2.rows.map Row.chapter_number = List.range' 1 k ∧
    (uploadHandler env).2.calls = List.range' 0 (k + 1) := by
  have hloop := processLoop_fail env results (segmentIntoChapters text) k 0 [] [] hk
    (by intro j hj1 hj2; simpa using hok j hj1 hj2)
    (by
      rcases hfail with ⟨e, hcase⟩ | ⟨r, e, hcase, hins⟩
      · exact Or.inl ⟨e, by simpa using hcase⟩
      · exact Or.inr ⟨r, e, by simpa using hcase, by simpa using hins⟩)
  have hrows : (uploadHandler env).2.rows = expectedRows results 0 k := by
    simp only [uploadHandler, hf, if_true, he]
    rw [hloop]
    simp
  refine ⟨?_, hrows, ?_, ?_⟩
  · simp only [uploadHandler, hf, if_true, he]
    rw [hloop]
    simp
  · rw [hrows]
    simpa using expectedRows_map_chapter results 0 k
  · simp only [uploadHandler, hf, if_true, he]
    rw [hloop]
    simp

/-- Claim C7, counterexample: a run in which the single chapter is
summarized and stored successfully but the fs.unlink of the temp file
fails answers 500, not the success confirmation the claim requires. -/
theorem c7_counterexample :
    (processLoop envUnlinkFail (segmentIntoChapters ("hello")) 0 [] []).ok = true ∧
    envUnlinkFail.unlinkOutcome = .error ("EPERM") ∧
    (uploadHandler envUnlinkFail).1 = .err500 ∧
    (uploadHandler envUnlinkFail).1 ≠ .ok200 := by
  refine ⟨by decide, rfl, by decide, by decide⟩

/-- Claim C7 as amended: when every chapter is summarized and stored
successfully and the temp-file deletion then fails, the failure is not
absorbed: the request answers 500; the rows already inserted remain and
the temp file survives. -/
theorem c7_amended_thm (env : Env) (text : String) (e : String)
    (hf : env.filePresent = true) (he : env.extract = .ok text)
    (hloop : (processLoop env (segmentIntoChapters text) 0 [] []).ok = true)
    (hunlink : env.unlinkOutcome = .error e) :
    (uploadHandler env).1 = .err500 ∧
    (uploadHandler env).2.rows = (processLoop env (segmentIntoChapters text) 0 [] []).rows ∧
    (uploadHandler env).2.unlinkAttempted = true ∧
    (uploadHandler env).2.fileDeleted = false := by
  simp [uploadHandler, hf, he, hloop, hunlink]

/-- Claim C8: no chapter the segmenter returns is empty or
whitespace-only; any split piece that trims to empty is filtered out. -/
theorem c8_thm (text s : String) (hs : s ∈ segmentIntoChapters text) : jsTrim s ≠ "" := by
  have h := (List.mem_filter.mp hs).2
  simpa using h

theorem c8_witness :
    (" hello") ∈ segmentIntoChapters ("Chapter 1 hello") ∧ jsTrim (" hello") ≠ "" :=
  ⟨by decide, c8_thm ("Chapter 1 hello") (" hello") (by decide)⟩

/-- Claim C9, counterexample: the listener is bound, and so accepts upload
requests, before the startup check runs; on a failed check the process
exits only afterwards, so it was in an accepting state first, refuting
that a serving state is never entered. -/
theorem c9_counterexample :
    checkSupabaseConnection SelectOutcome.errorResult = false ∧
    startupTrace SelectOutcome.errorResult =
      [.listenBound, .checkRun false, .exitProcess] ∧
    ¬ (∀ e ∈ startupTrace SelectOutcome.errorResult, acceptsRequestsAt e = false) := by
  refine ⟨rfl, rfl, by decide⟩

/-- Claim C9 as amended: when the startup read fails, the process exits
right after the check and never reaches the steady serving state, but the
listener has already been bound before the check, so the exit is the final
event of a trace that begins in an accepting state. -/
theorem c9_amended_thm (o : SelectOutcome) (h : checkSupabaseConnection o = false) :
    startupTrace o = [.listenBound, .checkRun false, .exitProcess] ∧
    StartEvent.serving ∉ startupTrace o ∧
    (startupTrace o).getLast? = some .exitProcess := by
  cases o with
  | gotRows => exact absurd h (by decide)
  | errorResult => exact ⟨by decide, by decide, by decide⟩
  | threw => exact ⟨by decide, by decide, by decide⟩

theorem c9_witness :
    startupTrace SelectOutcome.threw = [.listenBound, .checkRun false, .exitProcess] ∧
    StartEvent.serving ∉ startupTrace SelectOutcome.threw ∧
    (startupTrace SelectOutcome.threw).getLast? = some .exitProcess :=
  c9_amended_thm SelectOutcome.threw rfl

/-- Claim C10: the chapters the segmenter returns are contiguous,
pairwise disjoint substrings of the input appearing in their original
left-to-right order (they form a sublist of a partition of the input's
characters), and none of them contains an occurrence of the heading
pattern Chapter-space-digits (case-insensitive). -/
theorem c10_thm (text : String) :
    (∃ parts : List (List Char), parts.flatten = text.data ∧
      List.Sublist ((segmentIntoChapters text).map String.data) parts) ∧
    ∀ s, s ∈ segmentIntoChapters text → containsHeading s.data = false :=
  ⟨segment_parts text, fun s hs => segment_mem_noHeading text s hs⟩

theorem c4_witness :
    (uploadHandler envParseFail).1 = .err500 ∧
    (uploadHandler envParseFail).2.rows = expectedRows (fun _ => sampleResult) 0 0 ∧
    (uploadHandler envParseFail).2.calls = List.range' 0 1 :=
  c4_thm envParseFail ("only text") (fun _ => sampleResult) 0 rfl rfl (by decide)
    (fun j hj1 _ => absurd hj1 (Nat.not_lt_zero j))
    ⟨("not json at all"), rfl, rfl⟩

theorem c5_witness :
    (uploadHandler envAllOk).2.rows =
      expectedRows (fun _ => wildResult) 0
        (segmentIntoChapters ("Chapter 1 aaa Chapter 2 bbb")).length ∧
    (uploadHandler envAllOk).2.rows.map Row.chapter_number =
      List.range' 1 (segmentIntoChapters ("Chapter 1 aaa Chapter 2 bbb")).length ∧
    (uploadHandler envAllOk).2.rows.length =
      (segmentIntoChapters ("Chapter 1 aaa Chapter 2 bbb")).length :=
  c5_thm envAllOk ("Chapter 1 aaa Chapter 2 bbb") (fun _ => wildResult) rfl rfl
    (fun _ _ => ⟨rfl, rfl⟩)

theorem c6_witness :
    (uploadHandler envInsertFail).1 = .err500 ∧
    (uploadHandler envInsertFail).2.rows = expectedRows (fun _ => sampleResult) 0 1 ∧
    (uploadHandler envInsertFail).2.rows.map Row.chapter_number = List.range' 1 1 ∧
    (uploadHandler envInsertFail).2.calls = List.range' 0 2 :=
  c6_thm envInsertFail ("Chapter 1 ccc Chapter 2 ddd") (fun _ => sampleResult) 1 rfl rfl
    (by decide)
    (by
      intro j hj1 hj2
      match j, hj1 with
      | 0, _ => exact ⟨rfl, rfl⟩)
    (Or.inr ⟨sampleResult, ("duplicate key"), rfl, rfl⟩)

theorem c7_witness :
    (uploadHandler envUnlinkFail).1 = .err500 ∧
    (uploadHandler envUnlinkFail).2.rows =
      (processLoop envUnlinkFail (segmentIntoChapters ("hello")) 0 [] []).rows ∧
    (uploadHandler envUnlinkFail).2.unlinkAttempted = true ∧
    (uploadHandler envUnlinkFail).2.fileDeleted = false :=
  c7_amended_thm envUnlinkFail ("hello") ("EPERM") rfl rfl (by decide) rfl
